import Mathlib

/-!
Verification of the particle-field renderer of `src/script.js`
(Happy_Birthday_Pookie).

The source is a small JavaScript file.  The particle system is the only
stateful core: `Particle.reset`, `Particle.update`, `ParticleSystem`
construction/`init`, `resizeCanvas`, the per-frame `animate` step and the
all-pairs `drawConnections` pass, plus the `ThemeController` toggle.

JavaScript numbers are modelled as rationals (`ℚ`): every quantity the
claims touch is produced by `+`, `-`, `*`, `/` and comparisons, which agree
with exact rational arithmetic on the inputs considered.  The one use of
`Math.sqrt` (the pairwise distance gate) is modelled by comparing squared
distances, which is the same test since both sides are nonnegative.
Randomness (`Math.random()`, uniform in `[0,1)`) is modelled by passing the
drawn values explicitly.
-/

namespace Birthday

/-- A particle of the field (`class Particle` in `src/script.js`).
Fields mirror the JS instance fields set by `reset()`. -/
structure Particle where
  x : ℚ
  y : ℚ
  size : ℚ
  speedX : ℚ
  speedY : ℚ
  opacity : ℚ
  deriving Repr, DecidableEq

/-- `Particle.reset()` re-seeds every field from `Math.random()` draws
against the current canvas dimensions:
`x = random()*width`, `y = random()*height`, `size = random()*3 + 1`,
`speedX = random()*0.5 - 0.25`, `speedY = random()*0.5 - 0.25`,
`opacity = random()*0.5 + 0.2`.  The six draws `r1..r6` (each in `[0,1)`)
are explicit arguments. -/
def Particle.reset (w h r1 r2 r3 r4 r5 r6 : ℚ) : Particle :=
  { x := r1 * w
  , y := r2 * h
  , size := r3 * 3 + 1
  , speedX := r4 * (1/2) - 1/4
  , speedY := r5 * (1/2) - 1/4
  , opacity := r6 * (1/2) + 1/5 }

/-- `Particle.update()`: add the speed to the position, then run the four
sequential wrap checks exactly as written in the source:
`if (x > width) x = 0; if (x < 0) x = width;` and likewise for `y`.
`w`, `h` are the current `canvas.width` / `canvas.height`. -/
def Particle.update (p : Particle) (w h : ℚ) : Particle :=
  let x1 := p.x + p.speedX
  let y1 := p.y + p.speedY
  let x2 := if x1 > w then 0 else x1
  let x3 := if x2 < 0 then w else x2
  let y2 := if y1 > h then 0 else y1
  let y3 := if y2 < 0 then h else y2
  { p with x := x3, y := y3 }

/-- The wrap rule as the spec words it, per axis: a coordinate past the
dimension resets to 0; a coordinate below 0 resets to the dimension.
Used to compare the source's sequential-if update against the spec. -/
def wrapCoord (v limit : ℚ) : ℚ :=
  if v > limit then 0 else if v < 0 then limit else v

/-- `n`-fold iteration of `Particle.update` at fixed canvas dimensions. -/
def Particle.iterUpdate (p : Particle) (w h : ℚ) : ℕ → Particle
  | 0 => p
  | n + 1 => (p.iterUpdate w h n).update w h

instance : Inhabited Particle :=
  ⟨{ x := 0, y := 0, size := 0, speedX := 0, speedY := 0, opacity := 0 }⟩

/-- The drawable surface: just its pixel dimensions (`canvas.width`,
`canvas.height`), the only canvas state the core reads or writes. -/
structure Canvas where
  width : ℚ
  height : ℚ
  deriving Repr, DecidableEq

/-- The particle field (`class ParticleSystem`). -/
structure ParticleSystem where
  canvas : Canvas
  particles : List Particle
  particleCount : ℕ
  deriving Repr, DecidableEq

/-- `ParticleSystem.init()`: `resizeCanvas()` first sets the canvas to the
window dimensions, then the loop pushes `particleCount` fresh particles
(each `new Particle(canvas)` calls `reset()` against those dimensions).
`rand i k` is the `k`-th `Math.random()` draw of particle `i`. -/
def ParticleSystem.init (winW winH : ℚ) (count : ℕ) (rand : ℕ → Fin 6 → ℚ) :
    ParticleSystem :=
  { canvas := { width := winW, height := winH }
  , particles := (List.range count).map fun i =>
      Particle.reset winW winH (rand i 0) (rand i 1) (rand i 2)
        (rand i 3) (rand i 4) (rand i 5)
  , particleCount := count }

/-- `resizeCanvas()`: sets `canvas.width`/`canvas.height` to the window
dimensions; it touches nothing else. -/
def ParticleSystem.resizeCanvas (s : ParticleSystem) (winW winH : ℚ) :
    ParticleSystem :=
  { s with canvas := { width := winW, height := winH } }

/-- The update half of `animate()`: `particles.forEach(p => p.update())`
against the current canvas dimensions. -/
def ParticleSystem.advanceAll (s : ParticleSystem) : ParticleSystem :=
  { s with particles :=
      s.particles.map fun p => p.update s.canvas.width s.canvas.height }

/-- Squared Euclidean distance, `dx*dx + dy*dy` of `drawConnections`. -/
def distSq (p q : Particle) : ℚ :=
  (p.x - q.x) * (p.x - q.x) + (p.y - q.y) * (p.y - q.y)

/-- `const maxDistance = 120` in `drawConnections`. -/
def maxDistance : ℚ := 120

/-- The gate `Math.sqrt(dx*dx + dy*dy) < maxDistance` of the source;
both sides are nonnegative, so it is equivalent to comparing the squared
distance against `maxDistance²`, which is how we state it over `ℚ`. -/
def connects (p q : Particle) : Bool :=
  distSq p q < maxDistance * maxDistance

/-- The stroked line's opacity, `(1 - distance / maxDistance) * 0.2`. -/
def lineOpacity (d : ℚ) : ℚ :=
  (1 - d / maxDistance) * (1/5)

/-- The inner loop of `drawConnections()` at index `i`:
`for (j = i+1; j < length; j++)`, strokes `(i, j)` when the gate holds. -/
def connectionPass (ps : List Particle) (i : ℕ) : List (ℕ × ℕ) :=
  (List.range' (i + 1) (ps.length - (i + 1))).filterMap fun j =>
    if connects (ps.getD i default) (ps.getD j default)
    then some (i, j) else none

/-- `drawConnections()`: `for (i = 0; i < length; i++) for (j = i+1;
j < length; j++) if (distance < maxDistance) stroke a line`.  Modelled as
the list of index pairs `(i, j)` whose line is stroked, in loop order. -/
def ParticleSystem.drawConnections (ps : List Particle) : List (ℕ × ℕ) :=
  (List.range ps.length).flatMap (connectionPass ps)

/-- The externally driven events a running field reacts to: the update
half of a frame, the draw half of a frame, and a window resize.  A render
step reads particle state but writes only to the 2-D drawing context, so
it is the identity on the modelled field state. -/
inductive FieldEvent where
  | advance : FieldEvent
  | render : FieldEvent
  | resize (winW winH : ℚ) : FieldEvent

def ParticleSystem.step (s : ParticleSystem) : FieldEvent → ParticleSystem
  | .advance => s.advanceAll
  | .render => s
  | .resize winW winH => s.resizeCanvas winW winH

def ParticleSystem.run (s : ParticleSystem) (evs : List FieldEvent) :
    ParticleSystem :=
  evs.foldl ParticleSystem.step s

/-- The runtime errors the modelled code can raise. -/
inductive JSError where
  | typeError : JSError
  deriving Repr, DecidableEq

/-- The `ParticleSystem` constructor: `this.canvas =
document.getElementById(canvasId)` (which yields `null` when the id
resolves to no element, modelled as `none`), then unconditionally
`this.canvas.getContext('2d')` — a member access on `null` raises a
`TypeError` — and then `init()`. -/
def ParticleSystem.construct (element : Option Canvas) (count : ℕ)
    (rand : ℕ → Fin 6 → ℚ) (winW winH : ℚ) : Except JSError ParticleSystem :=
  match element with
  | none => .error .typeError
  | some _ => .ok (ParticleSystem.init winW winH count rand)

/-- `this.themes = ['romantic', 'vibrant']` of `ThemeController`. -/
def themes : List String := ["romantic", "vibrant"]

/-- The theme state: `currentThemeIndex` plus the applied theme (the
`data-theme` attribute / `state.currentTheme` that `applyTheme` writes). -/
structure ThemeController where
  currentThemeIndex : ℕ
  appliedTheme : String
  deriving Repr, DecidableEq

/-- The `ThemeController` constructor: index 0; no theme is applied yet,
and the global `state.currentTheme` starts as `'romantic'`. -/
def ThemeController.initial : ThemeController :=
  { currentThemeIndex := 0, appliedTheme := "romantic" }

/-- `ThemeController.toggle()`: `currentThemeIndex = (currentThemeIndex
+ 1) % themes.length`, then `applyTheme(themes[currentThemeIndex])`. -/
def ThemeController.toggle (t : ThemeController) : ThemeController :=
  let i := (t.currentThemeIndex + 1) % themes.length
  { currentThemeIndex := i, appliedTheme := themes.getD i "" }

/-- The controller states reachable from construction by clicks. -/
inductive ThemeController.Reachable : ThemeController → Prop
  | init : ThemeController.Reachable ThemeController.initial
  | toggle {t : ThemeController} : ThemeController.Reachable t →
      ThemeController.Reachable t.toggle

/-- A concrete two-particle field at distance 40 (the spec's scenario A at
(10,10), B at (10,50)). -/
def exNear : List Particle :=
  [ { x := 10, y := 10, size := 1, speedX := 0, speedY := 0, opacity := 1/2 }
  , { x := 10, y := 50, size := 1, speedX := 0, speedY := 0, opacity := 1/2 } ]

/-- A concrete three-particle field with every pairwise distance at least
the 120 threshold. -/
def exFar : List Particle :=
  [ { x := 0, y := 0, size := 1, speedX := 0, speedY := 0, opacity := 1/2 }
  , { x := 500, y := 0, size := 1, speedX := 0, speedY := 0, opacity := 1/2 }
  , { x := 1000, y := 1000, size := 1, speedX := 0, speedY := 0, opacity := 1/2 } ]

/-! ## Theorems -/

theorem update_eq_wrapCoord (p : Particle) (w h : ℚ) :
    p.update w h =
      { p with x := wrapCoord (p.x + p.speedX) w
             , y := wrapCoord (p.y + p.speedY) h } := by
  unfold Particle.update wrapCoord
  by_cases hx : p.x + p.speedX > w <;> by_cases hy : p.y + p.speedY > h <;>
    simp [hx, hy]

theorem wrapCoord_nonneg (v limit : ℚ) (hl : 0 ≤ limit) :
    0 ≤ wrapCoord v limit := by
  unfold wrapCoord
  split
  · exact le_refl 0
  · split
    · exact hl
    · linarith [not_lt.mp (by assumption : ¬ v < 0)]

theorem wrapCoord_le (v limit : ℚ) (hl : 0 ≤ limit) :
    wrapCoord v limit ≤ limit := by
  unfold wrapCoord
  split
  · exact hl
  · split
    · exact le_refl limit
    · exact le_of_not_lt (by assumption)

/-- C1 counterexample.  The claimed strict invariant `p.x < width` fails:
a particle inside `[0, 100) × [0, 100)` with the spec-conformant speed
`-1/4` lands exactly on `x = width` after one `update()`, because the
below-zero wrap sets the coordinate to the dimension itself. -/
theorem position_strict_bound_cex :
    (0 : ℚ) ≤ (1/8 : ℚ) ∧ (1/8 : ℚ) < 100 ∧
    ((Particle.update
        { x := 1/8, y := 1/8, size := 2, speedX := -(1/4), speedY := -(1/4)
        , opacity := 1/2 } 100 100).x = 100 ∧
      ¬ (Particle.update
        { x := 1/8, y := 1/8, size := 2, speedX := -(1/4), speedY := -(1/4)
        , opacity := 1/2 } 100 100).x < 100) := by
  refine ⟨by norm_num, by norm_num, ?_, ?_⟩ <;>
    simp [Particle.update] <;> norm_num

/-- C1 (amended).  After any number of `update()` calls from a position
within bounds, the position stays in the closed box
`[0, width] × [0, height]` (the strict claim `x < width` is false:
`x = width` is reachable, see the counterexample). -/
theorem position_closed_bounds_invariant (p : Particle) (w h : ℚ)
    (hw : 0 ≤ w) (hh : 0 ≤ h) (hx0 : 0 ≤ p.x) (hxw : p.x ≤ w)
    (hy0 : 0 ≤ p.y) (hyh : p.y ≤ h) :
    ∀ n : ℕ, 0 ≤ (p.iterUpdate w h n).x ∧ (p.iterUpdate w h n).x ≤ w ∧
      0 ≤ (p.iterUpdate w h n).y ∧ (p.iterUpdate w h n).y ≤ h := by
  intro n
  induction n with
  | zero => exact ⟨hx0, hxw, hy0, hyh⟩
  | succ k _ =>
      have hstep := update_eq_wrapCoord (p.iterUpdate w h k) w h
      refine ⟨?_, ?_, ?_, ?_⟩ <;>
        simp only [Particle.iterUpdate, hstep]
      · exact wrapCoord_nonneg _ _ hw
      · exact wrapCoord_le _ _ hw
      · exact wrapCoord_nonneg _ _ hh
      · exact wrapCoord_le _ _ hh

theorem position_closed_bounds_invariant_witness :
    0 ≤ ((Particle.mk 5 7 1 (1/4) (-(1/4)) (1/2)).iterUpdate 100 100 3).x ∧
    ((Particle.mk 5 7 1 (1/4) (-(1/4)) (1/2)).iterUpdate 100 100 3).x ≤ 100 ∧
    0 ≤ ((Particle.mk 5 7 1 (1/4) (-(1/4)) (1/2)).iterUpdate 100 100 3).y ∧
    ((Particle.mk 5 7 1 (1/4) (-(1/4)) (1/2)).iterUpdate 100 100 3).y ≤ 100 :=
  position_closed_bounds_invariant _ 100 100 (by norm_num) (by norm_num)
    (by norm_num) (by norm_num) (by norm_num) (by norm_num) 3

/-- C2.  One `update()` adds the velocity to the position and then wraps
each axis independently by the spec's rule (`wrapCoord`: above the
dimension ↦ 0, below 0 ↦ the dimension); in particular a particle at
`x = width - 0.1` with `speedX = 1` lands at `x = 0`. -/
theorem advance_adds_velocity_then_wraps (p : Particle) (w h : ℚ)
    (hx : p.x = w - 1/10) (hvx : p.speedX = 1) :
    (∀ (q : Particle) (w1 h1 : ℚ), q.update w1 h1 =
        { q with x := wrapCoord (q.x + q.speedX) w1
               , y := wrapCoord (q.y + q.speedY) h1 }) ∧
    (p.update w h).x = 0 := by
  refine ⟨update_eq_wrapCoord, ?_⟩
  rw [update_eq_wrapCoord]
  show wrapCoord (p.x + p.speedX) w = 0
  rw [hx, hvx]
  unfold wrapCoord
  rw [if_pos (by linarith)]

theorem advance_adds_velocity_then_wraps_witness :
    ((Particle.mk (999/10) 0 1 1 0 (1/2)).update 100 100).x = 0 :=
  (advance_adds_velocity_then_wraps (Particle.mk (999/10) 0 1 1 0 (1/2))
    100 100 (by norm_num) rfl).2

/-- C7.  One `update()` changes only the position: speed, size and
opacity are untouched. -/
theorem update_preserves_non_position_fields (p : Particle) (w h : ℚ) :
    (p.update w h).speedX = p.speedX ∧ (p.update w h).speedY = p.speedY ∧
    (p.update w h).size = p.size ∧ (p.update w h).opacity = p.opacity := by
  simp [Particle.update]

/-- C8.  A fresh (or reset) particle's randomized attributes land in the
Data Model ranges: `size ∈ [1, 4)`, `opacity ∈ [0.2, 0.7)`, each speed
component in `[-0.25, 0.25]`, and the position in `[0, w) × [0, h)`. -/
theorem reset_ranges (w h r1 r2 r3 r4 r5 r6 : ℚ)
    (hw : 0 < w) (hh : 0 < h)
    (h1 : 0 ≤ r1) (h1u : r1 < 1) (h2 : 0 ≤ r2) (h2u : r2 < 1)
    (h3 : 0 ≤ r3) (h3u : r3 < 1) (h4 : 0 ≤ r4) (h4u : r4 < 1)
    (h5 : 0 ≤ r5) (h5u : r5 < 1) (h6 : 0 ≤ r6) (h6u : r6 < 1) :
    (1 ≤ (Particle.reset w h r1 r2 r3 r4 r5 r6).size ∧
      (Particle.reset w h r1 r2 r3 r4 r5 r6).size < 4) ∧
    (1/5 ≤ (Particle.reset w h r1 r2 r3 r4 r5 r6).opacity ∧
      (Particle.reset w h r1 r2 r3 r4 r5 r6).opacity < 7/10) ∧
    (-(1/4) ≤ (Particle.reset w h r1 r2 r3 r4 r5 r6).speedX ∧
      (Particle.reset w h r1 r2 r3 r4 r5 r6).speedX ≤ 1/4) ∧
    (-(1/4) ≤ (Particle.reset w h r1 r2 r3 r4 r5 r6).speedY ∧
      (Particle.reset w h r1 r2 r3 r4 r5 r6).speedY ≤ 1/4) ∧
    (0 ≤ (Particle.reset w h r1 r2 r3 r4 r5 r6).x ∧
      (Particle.reset w h r1 r2 r3 r4 r5 r6).x < w) ∧
    (0 ≤ (Particle.reset w h r1 r2 r3 r4 r5 r6).y ∧
      (Particle.reset w h r1 r2 r3 r4 r5 r6).y < h) := by
  simp only [Particle.reset]
  refine ⟨⟨?_, ?_⟩, ⟨?_, ?_⟩, ⟨?_, ?_⟩, ⟨?_, ?_⟩, ⟨?_, ?_⟩, ⟨?_, ?_⟩⟩ <;>
    nlinarith

theorem reset_ranges_witness :
    (1 ≤ (Particle.reset 100 80 0 (1/2) (1/2) 0 (99/100) (1/2)).size ∧
      (Particle.reset 100 80 0 (1/2) (1/2) 0 (99/100) (1/2)).size < 4) ∧
    (1/5 ≤ (Particle.reset 100 80 0 (1/2) (1/2) 0 (99/100) (1/2)).opacity ∧
      (Particle.reset 100 80 0 (1/2) (1/2) 0 (99/100) (1/2)).opacity < 7/10) ∧
    (-(1/4) ≤ (Particle.reset 100 80 0 (1/2) (1/2) 0 (99/100) (1/2)).speedX ∧
      (Particle.reset 100 80 0 (1/2) (1/2) 0 (99/100) (1/2)).speedX ≤ 1/4) ∧
    (-(1/4) ≤ (Particle.reset 100 80 0 (1/2) (1/2) 0 (99/100) (1/2)).speedY ∧
      (Particle.reset 100 80 0 (1/2) (1/2) 0 (99/100) (1/2)).speedY ≤ 1/4) ∧
    (0 ≤ (Particle.reset 100 80 0 (1/2) (1/2) 0 (99/100) (1/2)).x ∧
      (Particle.reset 100 80 0 (1/2) (1/2) 0 (99/100) (1/2)).x < 100) ∧
    (0 ≤ (Particle.reset 100 80 0 (1/2) (1/2) 0 (99/100) (1/2)).y ∧
      (Particle.reset 100 80 0 (1/2) (1/2) 0 (99/100) (1/2)).y < 80) :=
  reset_ranges 100 80 0 (1/2) (1/2) 0 (99/100) (1/2)
    (by norm_num) (by norm_num) (by norm_num) (by norm_num) (by norm_num)
    (by norm_num) (by norm_num) (by norm_num) (by norm_num) (by norm_num)
    (by norm_num) (by norm_num) (by norm_num) (by norm_num)

theorem step_preserves_length (s : ParticleSystem) (e : FieldEvent) :
    (s.step e).particles.length = s.particles.length := by
  cases e <;>
    simp [ParticleSystem.step, ParticleSystem.advanceAll,
      ParticleSystem.resizeCanvas]

/-- C5.  `init()` creates exactly `count` particles, and no sequence of
advance / render / resize events ever changes the collection's size. -/
theorem particle_count_invariant (winW winH : ℚ) (count : ℕ)
    (rand : ℕ → Fin 6 → ℚ) (s : ParticleSystem) (evs : List FieldEvent) :
    (ParticleSystem.init winW winH count rand).particles.length = count ∧
    (s.run evs).particles.length = s.particles.length := by
  constructor
  · simp [ParticleSystem.init]
  · induction evs generalizing s with
    | nil => rfl
    | cons e rest ih =>
        calc ((s.step e).run rest).particles.length
            = (s.step e).particles.length := ih (s.step e)
          _ = s.particles.length := step_preserves_length s e

/-- C9.  `resizeCanvas()` rewrites only the canvas dimensions — the
particle list is untouched — and the next advance wraps every particle
against the new dimensions; concretely, after a resize from 800×600 to
400×300, a particle at (600, 500) with speed (1, 1) wraps to (0, 0). -/
theorem resize_keeps_particles_wraps_new_bounds (s : ParticleSystem)
    (winW winH : ℚ) :
    (s.resizeCanvas winW winH).particles = s.particles ∧
    (s.resizeCanvas winW winH).canvas = { width := winW, height := winH } ∧
    (s.resizeCanvas winW winH).advanceAll.particles =
      s.particles.map (fun p => p.update winW winH) ∧
    (((ParticleSystem.mk { width := 800, height := 600 }
          [Particle.mk 600 500 2 1 1 (1/2)] 1).resizeCanvas 400
          300).advanceAll.particles =
        [Particle.mk 0 0 2 1 1 (1/2)]) := by
  refine ⟨rfl, rfl, rfl, ?_⟩
  simp only [ParticleSystem.resizeCanvas, ParticleSystem.advanceAll,
    List.map_cons, List.map_nil, Particle.update]
  norm_num

/-- C6 counterexample.  When `getElementById` resolves no element the
constructor does not silently no-op: `this.canvas.getContext('2d')` is a
member access on `null`, so construction raises a `TypeError`. -/
theorem construct_null_canvas_cex :
    ParticleSystem.construct none 80 (fun _ _ => 0) 800 600 =
      Except.error JSError.typeError ∧
    ¬ ∃ s : ParticleSystem,
        ParticleSystem.construct none 80 (fun _ _ => 0) 800 600 =
          Except.ok s := by
  refine ⟨rfl, ?_⟩
  rintro ⟨s, hs⟩
  exact Except.noConfusion hs

/-- C6 (amended).  For every particle count, random stream and window
size, construction with an unresolvable surface identifier raises a
`TypeError` (it neither returns a system nor skips silently). -/
theorem construct_null_canvas_raises (count : ℕ) (rand : ℕ → Fin 6 → ℚ)
    (winW winH : ℚ) :
    ParticleSystem.construct none count rand winW winH =
      Except.error JSError.typeError := rfl

theorem theme_reachable_invariant {t : ThemeController}
    (h : ThemeController.Reachable t) :
    t.currentThemeIndex < 2 ∧
      t.appliedTheme = themes.getD t.currentThemeIndex "" := by
  induction h with
  | init => exact ⟨by decide, rfl⟩
  | toggle _ ih =>
      refine ⟨?_, rfl⟩
      exact Nat.mod_lt _ (by decide)

/-- C10.  From every reachable theme-controller state, `toggle()` is an
involution: two clicks restore the state (index and applied theme), the
applied theme is always one of `'romantic'` / `'vibrant'`, and a single
click switches to the other one. -/
theorem theme_toggle_involution {t : ThemeController}
    (h : ThemeController.Reachable t) :
    t.toggle.toggle = t ∧
    (t.appliedTheme = "romantic" ∨ t.appliedTheme = "vibrant") ∧
    t.toggle.appliedTheme ≠ t.appliedTheme := by
  obtain ⟨hlt, happ⟩ := theme_reachable_invariant h
  obtain ⟨i, a⟩ := t
  simp only at hlt happ
  interval_cases i <;> subst happ <;>
    refine ⟨rfl, by simp [themes], by simp [ThemeController.toggle, themes]⟩

theorem theme_toggle_involution_witness :
    ThemeController.initial.toggle.toggle = ThemeController.initial ∧
    (ThemeController.initial.appliedTheme = "romantic" ∨
      ThemeController.initial.appliedTheme = "vibrant") ∧
    ThemeController.initial.toggle.appliedTheme ≠
      ThemeController.initial.appliedTheme :=
  theme_toggle_involution ThemeController.Reachable.init

/-- C3.  The stroked line's opacity is `(1 - d/120) * 0.2`: strictly
decreasing in the distance, 0 at the 120 threshold, `2/15 ≈ 0.1333` at
distance 40 — and the spec's scenario pair A(10,10), B(10,50) is at
squared distance `40²`, under the gate. -/
theorem connection_opacity_falloff (d1 d2 : ℚ) (hlt : d1 < d2) :
    lineOpacity d2 < lineOpacity d1 ∧
    lineOpacity maxDistance = 0 ∧
    lineOpacity 40 = 2/15 ∧
    distSq (Particle.mk 10 10 1 0 0 (1/2)) (Particle.mk 10 50 1 0 0 (1/2)) =
      40 * 40 ∧
    connects (Particle.mk 10 10 1 0 0 (1/2)) (Particle.mk 10 50 1 0 0 (1/2)) =
      true := by
  refine ⟨?_, ?_, ?_, ?_, ?_⟩
  · simp only [lineOpacity, maxDistance]
    linarith
  · norm_num [lineOpacity, maxDistance]
  · norm_num [lineOpacity, maxDistance]
  · norm_num [distSq]
  · simp only [connects, decide_eq_true_eq]
    norm_num [distSq, maxDistance]

theorem connection_opacity_falloff_witness :
    lineOpacity 40 < lineOpacity 0 ∧
    lineOpacity maxDistance = 0 ∧
    lineOpacity 40 = 2/15 ∧
    distSq (Particle.mk 10 10 1 0 0 (1/2)) (Particle.mk 10 50 1 0 0 (1/2)) =
      40 * 40 ∧
    connects (Particle.mk 10 10 1 0 0 (1/2)) (Particle.mk 10 50 1 0 0 (1/2)) =
      true :=
  connection_opacity_falloff 0 40 (by norm_num)

theorem mem_connectionPass (ps : List Particle) (i a b : ℕ) :
    (a, b) ∈ connectionPass ps i ↔
      a = i ∧ i < b ∧ b < ps.length ∧
      connects (ps.getD i default) (ps.getD b default) = true := by
  unfold connectionPass
  simp only [List.mem_filterMap, List.mem_range', one_mul]
  constructor
  · rintro ⟨j, ⟨k, hk, rfl⟩, hj⟩
    split at hj
    · obtain ⟨rfl, rfl⟩ := Prod.mk.injEq .. ▸ Option.some.inj hj
      exact ⟨rfl, by omega, by omega, by assumption⟩
    · exact absurd hj (by simp)
  · rintro ⟨rfl, hab, hb, hc⟩
    refine ⟨b, ⟨b - (a + 1), by omega, by omega⟩, ?_⟩
    rw [if_pos hc]

theorem mem_drawConnections (ps : List Particle) (a b : ℕ) :
    (a, b) ∈ ParticleSystem.drawConnections ps ↔
      a < b ∧ b < ps.length ∧
      connects (ps.getD a default) (ps.getD b default) = true := by
  unfold ParticleSystem.drawConnections
  simp only [List.mem_flatMap, List.mem_range]
  constructor
  · rintro ⟨i, _, hmem⟩
    obtain ⟨rfl, h2, h3, h4⟩ := (mem_connectionPass ps i a b).mp hmem
    exact ⟨h2, h3, h4⟩
  · rintro ⟨hab, hb, hc⟩
    exact ⟨a, by omega, (mem_connectionPass ps a a b).mpr ⟨rfl, hab, hb, hc⟩⟩

theorem connectionPass_nodup (ps : List Particle) (i : ℕ) :
    (connectionPass ps i).Nodup := by
  unfold connectionPass
  refine List.Nodup.filterMap ?_ (List.nodup_range' _ _)
  intro a a' b hb hb'
  simp only [Option.mem_def] at hb hb'
  split at hb
  · obtain rfl := Option.some.inj hb
    split at hb'
    · exact ((Prod.mk.injEq .. ▸ Option.some.inj hb').2).symm
    · exact absurd hb' (by simp)
  · exact absurd hb (by simp)

theorem connectionPass_fst (ps : List Particle) (i : ℕ) {x : ℕ × ℕ}
    (hx : x ∈ connectionPass ps i) : x.1 = i := by
  obtain ⟨a, b⟩ := x
  exact ((mem_connectionPass ps i a b).mp hx).1

theorem drawConnections_nodup (ps : List Particle) :
    (ParticleSystem.drawConnections ps).Nodup := by
  unfold ParticleSystem.drawConnections
  rw [List.flatMap_def, List.nodup_flatten]
  constructor
  · intro l hl
    obtain ⟨i, _, rfl⟩ := List.mem_map.mp hl
    exact connectionPass_nodup ps i
  · rw [List.pairwise_map]
    refine (List.pairwise_lt_range _).imp ?_
    intro a b hab x hxa hxb
    have h1 := connectionPass_fst ps a hxa
    have h2 := connectionPass_fst ps b hxb
    omega

/-- C4.  `drawConnections()` strokes exactly one line per unordered pair
of distinct indices whose (squared) distance is under the 120 threshold:
membership in the stroked list is equivalent to `i < j < length` plus the
gate, the stroked list has no duplicates, and it is empty whenever every
pair fails the gate. -/
theorem drawConnections_unordered_pairs (ps : List Particle) :
    (∀ i j : ℕ, (i, j) ∈ ParticleSystem.drawConnections ps ↔
        (i < j ∧ j < ps.length ∧
          connects (ps.getD i default) (ps.getD j default) = true)) ∧
    (ParticleSystem.drawConnections ps).Nodup ∧
    ((∀ j < ps.length, ∀ i < j,
        connects (ps.getD i default) (ps.getD j default) = false) →
      ParticleSystem.drawConnections ps = []) := by
  refine ⟨fun i j => mem_drawConnections ps i j, drawConnections_nodup ps, ?_⟩
  intro hfar
  rw [List.eq_nil_iff_forall_not_mem]
  rintro ⟨a, b⟩ hmem
  obtain ⟨hab, hb, hc⟩ := (mem_drawConnections ps a b).mp hmem
  rw [hfar b hb a hab] at hc
  exact Bool.false_ne_true hc

theorem drawConnections_unordered_pairs_witness :
    (0, 1) ∈ ParticleSystem.drawConnections exNear ∧
    ParticleSystem.drawConnections exFar = [] :=
  ⟨((drawConnections_unordered_pairs exNear).1 0 1).mpr
      (by
        refine ⟨by omega, by norm_num [exNear], ?_⟩
        simp only [exNear, connects, decide_eq_true_eq]
        norm_num [distSq, maxDistance, List.getD]),
    (drawConnections_unordered_pairs exFar).2.2
      (by
        intro j hj i hij
        simp only [exFar, List.length_cons, List.length_nil] at hj
        interval_cases j <;> interval_cases i <;>
          · simp only [exFar, connects, decide_eq_false_iff_not, not_lt]
            norm_num [distSq, maxDistance, List.getD])⟩

end Birthday
